import Mathlib

/-!
Verification of the retis metadata filter compiler
(src/retis/src/core/filters/meta/filter.rs).

The Rust code is shallowly embedded: strings are lists of characters,
machine integers are natural numbers with explicit bounds checks where the
code performs `try_from` conversions, the BTF type database is a structural
tree (each chained type carries its target type directly), and fallible
functions return an explicit result type that distinguishes `Ok`, `bail!`
errors and Rust panics.
-/

set_option maxRecDepth 20000

namespace Retis

/-- Result of running a fallible Rust function: `Ok`, a `bail!`-style error
carrying a message, or a Rust panic (used where the source can actually
panic, e.g. out-of-order string slicing). -/
inductive RRes (α : Type) where
  | ok (val : α)
  | err (msg : String)
  | panicked
deriving Repr, DecidableEq

def RRes.isOk {α : Type} : RRes α → Bool
  | .ok _ => true
  | _ => false

def RRes.isErr {α : Type} : RRes α → Bool
  | .err _ => true
  | _ => false

/-- Rust `str::split` with a single-character pattern: always returns at
least one piece; adjacent separators produce empty pieces. -/
def splitOnChar (c : Char) : List Char → List (List Char)
  | [] => [[]]
  | x :: xs =>
    let r := splitOnChar c xs
    if x = c then [] :: r
    else
      match r with
      | y :: ys => (x :: y) :: ys
      | [] => [[x]]

/-- Value of one digit character for a given radix (as in Rust
`char::to_digit`, used by `from_str_radix`). -/
def digitVal (base : Nat) (c : Char) : Option Nat :=
  let v :=
    if '0' ≤ c ∧ c ≤ '9' then some (c.toNat - '0'.toNat)
    else if 'a' ≤ c ∧ c ≤ 'z' then some (c.toNat - 'a'.toNat + 10)
    else if 'A' ≤ c ∧ c ≤ 'Z' then some (c.toNat - 'A'.toNat + 10)
    else none
  match v with
  | some d => if d < base then some d else none
  | none => none

def parseDigitsAux (base : Nat) : List Char → Nat → Option Nat
  | [], acc => some acc
  | c :: cs, acc =>
    match digitVal base c with
    | some d => parseDigitsAux base cs (acc * base + d)
    | none => none

/-- Digits-only numeral: fails on an empty string or an invalid digit. -/
def parseDigits (base : Nat) : List Char → Option Nat
  | [] => none
  | cs => parseDigitsAux base cs 0

def U64MOD : Nat := 2 ^ 64

/-- Rust `u64::from_str_radix` (also `str::parse::<u64>` at base 10):
optional leading plus sign, non-empty digit string, result must fit u64. -/
def fromStrRadixU64 (base : Nat) (cs : List Char) : Option Nat :=
  let body := match cs with
    | '+' :: rest => rest
    | rest => rest
  match parseDigits base body with
  | some v => if v < U64MOD then some v else none
  | none => none

/-- Rust `str::parse::<i64>`: optional sign, decimal digits, i64 range. -/
def parseI64 (cs : List Char) : Option Int :=
  match cs with
  | '-' :: rest =>
    match parseDigits 10 rest with
    | some v => if v ≤ 2 ^ 63 then some (-(v : Int)) else none
    | none => none
  | '+' :: rest =>
    match parseDigits 10 rest with
    | some v => if v < 2 ^ 63 then some (v : Int) else none
    | none => none
  | rest =>
    match parseDigits 10 rest with
    | some v => if v < 2 ^ 63 then some (v : Int) else none
    | none => none

/-- Rust `i64 as u64`: two's-complement reinterpretation. -/
def intAsU64 (v : Int) : Nat := (v % (U64MOD : Int)).toNat

/-- Rust `!mask` on u64 (bitwise complement; argument is below 2^64). -/
def u64Not (v : Nat) : Nat := U64MOD - 1 - v

/-- Rust `u64::to_ne_bytes` truncated view: the first `w` bytes of the
host (little-endian x86-64) byte encoding of `v`. -/
def toNeBytes (v : Nat) (w : Nat) : List Nat :=
  (List.range w).map fun i => v / 256 ^ i % 256

/-- UTF-8 encoding of one character (as `char::encode_utf8`). -/
def utf8Bytes (c : Char) : List Nat :=
  let n := c.toNat
  if n < 0x80 then [n]
  else if n < 0x800 then
    [0xC0 ||| (n >>> 6), 0x80 ||| (n &&& 0x3F)]
  else if n < 0x10000 then
    [0xE0 ||| (n >>> 12), 0x80 ||| ((n >>> 6) &&& 0x3F), 0x80 ||| (n &&& 0x3F)]
  else
    [0xF0 ||| (n >>> 18), 0x80 ||| ((n >>> 12) &&& 0x3F),
     0x80 ||| ((n >>> 6) &&& 0x3F), 0x80 ||| (n &&& 0x3F)]

/-- The UTF-8 bytes of a string (Rust `str::as_bytes`); its length is
Rust `str::len`, the byte length. -/
def strBytes (s : List Char) : List Nat := (s.map utf8Bytes).flatten

mutual
/-- Model of `btf_rs::Type`. Chained kinds (pointer, array element,
typedef, cv-qualifiers, tags) carry their target type structurally, so the
`type_iter` chain of the library is just repeated destructuring.
`unsupported` stands for every other BTF kind (func, fwd, float, ...). -/
inductive BtfType where
  | int (name : List Char) (size : Nat) (signed : Bool)
  | ptr (pointee : BtfType)
  | array (elem : BtfType) (len : Nat)
  | cstruct (name : List Char) (members : MemberList)
  | cunion (name : List Char) (members : MemberList)
  | cenum (name : List Char) (signed : Bool)
  | cenum64 (name : List Char) (signed : Bool)
  | typeAlias (name : List Char) (aliased : BtfType)
  | cconst (inner : BtfType)
  | cvolatile (inner : BtfType)
  | crestrict (inner : BtfType)
  | declTag (inner : BtfType)
  | typeTag (inner : BtfType)
  | unsupported (name : List Char)

/-- Members of a struct or union as reported by the type database: name
(empty for anonymous inner records), bit offset, optional bitfield width,
and the member's (chained) type. -/
inductive MemberList where
  | nil
  | cons (name : List Char) (bitOffset : Nat) (bitfieldSize : Option Nat)
      (ty : BtfType) (rest : MemberList)
end

/-- The type database handle: `resolve_types_by_name`, returning every
type of the given name (the empty list models a lookup failure). -/
structure BtfEnv where
  resolve : List Char → List BtfType

def isStructType : BtfType → Bool
  | .cstruct _ _ => true
  | _ => false

/-- Cast targets accepted by `FilterMeta::from_string`: struct, union or
typedef. -/
def isCastTargetType : BtfType → Bool
  | .cstruct _ _ => true
  | .cunion _ _ => true
  | .typeAlias _ _ => true
  | _ => false

def isRecordType : BtfType → Bool
  | .cstruct _ _ => true
  | .cunion _ _ => true
  | _ => false

mutual
/-- `walk_btf_node`: look up a member by name inside a struct or union,
recursing into anonymous inner records while accumulating bit offsets.
Returns the accumulated bit offset, the bitfield width (if any) and the
member's resolved type. -/
def walkBtfNode (t : BtfType) (nodeName : List Char) (offset : Nat) :
    Option (Nat × Option Nat × BtfType) :=
  match t with
  | .cstruct _ ms => walkMembers ms nodeName offset
  | .cunion _ ms => walkMembers ms nodeName offset
  | _ => none

/-- The member loop of `walk_btf_node`. Note the faithful quirk: an
anonymous member whose type is not a struct or union makes the whole
search return `none` immediately (`_ => return None` in the source),
skipping any later members. -/
def walkMembers (ms : MemberList) (nodeName : List Char) (offset : Nat) :
    Option (Nat × Option Nat × BtfType) :=
  match ms with
  | .nil => none
  | .cons mname moff mbfs mty rest =>
    if mname = nodeName then some (offset + moff, mbfs, mty)
    else if mname = [] then
      match mty with
      | .cstruct n ms2 =>
        match walkBtfNode (.cstruct n ms2) nodeName (offset + moff) with
        | some r => some r
        | none => walkMembers rest nodeName offset
      | .cunion n ms2 =>
        match walkBtfNode (.cunion n ms2) nodeName (offset + moff) with
        | some r => some r
        | none => walkMembers rest nodeName offset
      | _ => none
    else walkMembers rest nodeName offset
end

/-- Host pointer size, `std::mem::size_of::<*const c_void>()`. -/
def PTR_SIZE : Nat := 8

/-- The chain-following loop of `FilterMeta::next_walkable` in the
non-cast case: `check_one_walkable` applied along the type chain, adding
one indirection per pointer, passing through transparent kinds, stopping
at a struct or union, and failing on every other kind. -/
def nwGo : BtfType → Nat → RRes (Nat × BtfType)
  | .ptr pointee, ind => nwGo pointee (ind + 1)
  | .typeAlias _ aliased, ind => nwGo aliased ind
  | .cconst inner, ind => nwGo inner ind
  | .cvolatile inner, ind => nwGo inner ind
  | .crestrict inner, ind => nwGo inner ind
  | .declTag inner, ind => nwGo inner ind
  | .typeTag inner, ind => nwGo inner ind
  | .cstruct n ms, ind => .ok (ind, .cstruct n ms)
  | .cunion n ms, ind => .ok (ind, .cunion n ms)
  | _, _ => .err "unexpected type while walking struct members"

/-- `FilterMeta::next_walkable`. With a cast requested the source checks
only the head type and returns early (a pointer-sized integer then counts
as one indirection); otherwise it walks the chain. -/
def nextWalkable (t : BtfType) (casted : Bool) : RRes (Nat × BtfType) :=
  if casted then
    match t with
    | .cstruct _ _ => .ok (0, t)
    | .cunion _ _ => .ok (0, t)
    | .int _ size _ =>
      if size = PTR_SIZE then .ok (1, t)
      else .err "unexpected type while walking struct members"
    | .ptr _ => .ok (1, t)
    | .typeAlias _ _ => .ok (0, t)
    | .cconst _ => .ok (0, t)
    | .cvolatile _ => .ok (0, t)
    | .crestrict _ => .ok (0, t)
    | .declTag _ => .ok (0, t)
    | .typeTag _ => .ok (0, t)
    | _ => .err "unexpected type while walking struct members"
  else nwGo t 0

def META_TARGET_MAX : Nat := 32
def PTR_BIT : Nat := 64
def SIGN_BIT : Nat := 128

/-- `MetaLoad`: one load operation of the compiled program. `ty` packs
the scalar kind (low five bits), the pointer bit and the sign bit. -/
structure MetaLoad where
  ty : Nat := 0
  nmemb : Nat := 0
  offt : Nat := 0
  bfSize : Nat := 0
  mask : Nat := 0
deriving Repr, DecidableEq

def MetaLoad.isByte (l : MetaLoad) : Bool := l.ty &&& 31 == 1
def MetaLoad.isShort (l : MetaLoad) : Bool := l.ty &&& 31 == 2
def MetaLoad.isInt (l : MetaLoad) : Bool := l.ty &&& 31 == 3
def MetaLoad.isLong (l : MetaLoad) : Bool := l.ty &&& 31 == 4
def MetaLoad.isNum (l : MetaLoad) : Bool :=
  l.isByte || l.isShort || l.isInt || l.isLong
def MetaLoad.isPtr (l : MetaLoad) : Bool := 0 < l.ty &&& PTR_BIT
def MetaLoad.isSigned (l : MetaLoad) : Bool := 0 < l.ty &&& SIGN_BIT
def MetaLoad.isArr (l : MetaLoad) : Bool := 0 < l.nmemb

/-- Scalar width in bytes selected by `emit_target` for a numeric load. -/
def MetaLoad.scalarWidth (l : MetaLoad) : Nat :=
  if l.isByte then 1
  else if l.isShort then 2
  else if l.isInt then 4
  else if l.isLong then 8
  else 0

/-- `MetaTarget`: the right-hand comparison operand (32-byte buffer,
used size and comparison code). -/
structure MetaTarget where
  md : List Nat
  sz : Nat := 0
  cmp : Nat := 0
deriving Repr, DecidableEq

/-- `MetaOp`: in the source a C union of `MetaLoad` and `MetaTarget`;
each emitted op is written as exactly one of the two shapes. -/
inductive MetaOp where
  | load (l : MetaLoad)
  | target (t : MetaTarget)
deriving Repr, DecidableEq

inductive MetaCmp where
  | eq | gt | lt | ge | le | ne
deriving Repr, DecidableEq

def MetaCmp.code : MetaCmp → Nat
  | .eq => 0
  | .gt => 1
  | .lt => 2
  | .ge => 3
  | .le => 4
  | .ne => 5

def MetaCmp.fromStr (op : List Char) : RRes MetaCmp :=
  if op = "==".toList then .ok .eq
  else if op = ">".toList then .ok .gt
  else if op = "<".toList then .ok .lt
  else if op = ">=".toList then .ok .ge
  else if op = "<=".toList then .ok .le
  else if op = "!=".toList then .ok .ne
  else .err "unknown comparison operator"

inductive Rval where
  | dec (s : List Char)
  | hex (s : List Char)
  | str (s : List Char)
deriving Repr, DecidableEq

/-- The single-quote character (ASCII 39). -/
def squote : Char := Char.ofNat 39

/-- Rust `str::trim_start_matches` with the pattern `0x`. -/
def trimStart0x : List Char → List Char
  | '0' :: 'x' :: rest => trimStart0x rest
  | cs => cs

/-- `Rval::from_str`. The quoted branch slices `rval[1 .. len - 1]`;
when the input is a single quote character both `starts_with` and
`ends_with` hold and the range is `1..0`, on which the Rust slice
indexing panics. -/
def Rval.fromString (cs : List Char) : RRes Rval :=
  if (cs.head? = some '"' ∧ cs.getLast? = some '"')
      ∨ (cs.head? = some squote ∧ cs.getLast? = some squote) then
    if cs.length = 1 then .panicked
    else .ok (.str ((cs.drop 1).dropLast))
  else
    match cs with
    | '0' :: 'x' :: rest => .ok (.hex (trimStart0x ('0' :: 'x' :: rest)))
    | _ => .ok (.dec cs)

/-- One dotted segment of the left-hand side (`LhsNode`). -/
structure LhsNode where
  member : List Char
  mask : Nat := 0
  tgtType : Option (List Char) := none
deriving Repr, DecidableEq

/-- `FilterMeta::parse_mask`: optional `~`, then hex/binary/decimal body,
complemented if `~` was present; a zero result is rejected. -/
def parseMask (el : List Char) : RRes Nat :=
  let p := match el with
    | '~' :: rest => (rest, true)
    | _ => (el, false)
  let b := match p.1 with
    | '0' :: 'x' :: rest => (16, rest)
    | '0' :: 'b' :: rest => (2, rest)
    | _ => (10, p.1)
  match fromStrRadixU64 b.1 b.2 with
  | none => .err "invalid mask"
  | some m =>
    let m := if p.2 then u64Not m else m
    if m = 0 then .err "mask cannot be zero" else .ok m

/-- One node of the dotted LHS chain, `member[:mask[:cast]]`. The first
node must be exactly `sk_buff` and allows neither mask nor cast. -/
def parseNode (first : Bool) (piece : List Char) : RRes LhsNode :=
  match splitOnChar ':' piece with
  | [] => .err "member is mandatory"
  | member :: restParts =>
    if first ∧ member ≠ "sk_buff".toList then
      .err "starting struct is not supported"
    else
      match restParts with
      | [] => .ok { member := member }
      | maskStr :: restParts2 =>
        if first then .err "initial type must be a base type only"
        else
          match parseMask maskStr with
          | .err e => .err e
          | .panicked => .panicked
          | .ok m =>
            match restParts2 with
            | [] => .ok { member := member, mask := m }
            | [tgt] => .ok { member := member, mask := m, tgtType := some tgt }
            | _ => .err "unexpected field expression"

def parseNodes : Bool → List (List Char) → RRes (List LhsNode)
  | _, [] => .ok []
  | first, p :: rest =>
    match parseNode first p with
    | .err e => .err e
    | .panicked => .panicked
    | .ok n =>
      match parseNodes false rest with
      | .err e => .err e
      | .panicked => .panicked
      | .ok ns => .ok (n :: ns)

/-- Second half of `FilterMeta::parse_filter`: parse the LHS nodes,
require at least two of them, and decode the operator. -/
def parseFilterRest (lhs op rhs : List Char) :
    RRes (List LhsNode × MetaCmp × List Char) :=
  match parseNodes true (splitOnChar '.' lhs) with
  | .err e => .err e
  | .panicked => .panicked
  | .ok nodes =>
    if nodes.length ≤ 1 then .err "expression does not point to a member"
    else
      match MetaCmp.fromStr op with
      | .err e => .err e
      | .panicked => .panicked
      | .ok c => .ok (nodes, c, rhs)

/-- `FilterMeta::parse_filter`: split on single spaces into exactly three
tokens, or one token which becomes `LHS != 0`. -/
def parseFilter (cs : List Char) : RRes (List LhsNode × MetaCmp × List Char) :=
  match splitOnChar ' ' cs with
  | [lhs, op, rhs] => parseFilterRest lhs op rhs
  | [lhs] => parseFilterRest lhs "!=".toList "0".toList
  | _ => .err "invalid filter"

/-- `MetaOp::emit_load_ptr`: a pure pointer load; the byte offset
(bit offset divided by 8) must fit in u16. -/
def emitLoadPtr (offt : Nat) (mask : Nat) : RRes MetaLoad :=
  if offt / 8 < 65536 then
    .ok { ty := PTR_BIT, offt := offt / 8, mask := mask }
  else .err "offset does not fit u16"

/-- The tail of the Int arm of `emit_load`'s loop
(`if !lop.is_byte() { bail_on_arr; bail_on_ptr; }`): array and pointer
qualification are rejected for every non-char integer. -/
def intFinish (lop : MetaLoad) : RRes MetaLoad :=
  if lop.isByte then .ok lop
  else if lop.isArr then .err "array of this type is not supported"
  else if lop.isPtr then .err "pointers to this type are not supported"
  else .ok lop

/-- The type-chain loop of `MetaOp::emit_load`, accumulating kind bits
into the load while following the chain. -/
def emitLoadCore : BtfType → MetaLoad → RRes MetaLoad
  | .ptr pointee, lop =>
    if lop.isPtr then .err "pointers to pointers are not supported here"
    else emitLoadCore pointee { lop with ty := lop.ty ||| PTR_BIT }
  | .array elem len, lop =>
    if lop.isPtr then .err "pointers to array are not supported"
    else if len < 256 then emitLoadCore elem { lop with nmemb := len }
    else .err "array length does not fit u8"
  | .cenum _ signed, lop =>
    if lop.isPtr then .err "pointers to enum are not supported"
    else .ok { lop with ty := lop.ty ||| 3 ||| (if signed then SIGN_BIT else 0) }
  | .cenum64 _ signed, lop =>
    if lop.isPtr then .err "pointers to enum64 are not supported"
    else .ok { lop with ty := lop.ty ||| 4 ||| (if signed then SIGN_BIT else 0) }
  | .int _ size signed, lop =>
    let lop := if signed then { lop with ty := lop.ty ||| SIGN_BIT } else lop
    match size with
    | 8 => intFinish { lop with ty := lop.ty ||| 4 }
    | 4 => intFinish { lop with ty := lop.ty ||| 3 }
    | 2 => intFinish { lop with ty := lop.ty ||| 2 }
    | 1 => intFinish { lop with ty := lop.ty ||| 1 }
    | _ => .err "unsupported type"
  | .typeAlias _ aliased, lop => emitLoadCore aliased lop
  | .cconst inner, lop => emitLoadCore inner lop
  | .cvolatile inner, lop => emitLoadCore inner lop
  | .crestrict inner, lop => emitLoadCore inner lop
  | .declTag inner, lop => emitLoadCore inner lop
  | .typeTag inner, lop => emitLoadCore inner lop
  | .cstruct _ _, _ => .err "found unsupported type while emitting operation"
  | .cunion _ _, _ => .err "found unsupported type while emitting operation"
  | .unsupported _, _ => .err "found unsupported type while emitting operation"

/-- The tail of `MetaOp::emit_load` after the chain loop: validate the
mask, then store the bitfield size (u8) and the offset (u16, taken on the
bit offset and divided by 8 only afterwards when there is no bitfield). -/
def emitLoadFinish (lop : MetaLoad) (offt bfs mask : Nat) : RRes MetaLoad :=
  if 0 < mask ∧ (lop.isPtr || (lop.isNum && !lop.isSigned)) = false then
    .err "mask is only supported for pointers and unsigned numeric members"
  else if 256 ≤ bfs then .err "bitfield size does not fit u8"
  else if 65536 ≤ offt then .err "offset does not fit u16"
  else
    .ok { lop with
          mask := (if 0 < mask then mask else lop.mask),
          bfSize := bfs,
          offt := (if bfs = 0 then offt / 8 else offt) }

/-- `MetaOp::emit_load`. The chain loop starts from a zeroed op and only
ever sets the kind bits and `nmemb`, so its result is repackaged from
exactly those two fields before the tail runs. -/
def emitLoad (t : BtfType) (offt bfs mask : Nat) : RRes MetaLoad :=
  match emitLoadCore t {} with
  | .err e => .err e
  | .panicked => .panicked
  | .ok lop => emitLoadFinish { ty := lop.ty, nmemb := lop.nmemb } offt bfs mask

/-- `MetaOp::emit_target`: build the Target op from the terminal load's
shape, the parsed right-hand value and the comparison operator. -/
def emitTarget (lmo : MetaLoad) (rval : Rval) (cmpOp : MetaCmp) :
    RRes MetaTarget :=
  if lmo.isPtr || 0 < lmo.nmemb then
    if cmpOp ≠ .eq ∧ cmpOp ≠ .ne then
      .err "wrong comparison operator, only eq and ne are supported for strings"
    else
      match rval with
      | .str val =>
        if META_TARGET_MAX ≤ (strBytes val).length then .err "invalid rval size"
        else
          .ok { md := strBytes val
                        ++ List.replicate (META_TARGET_MAX - (strBytes val).length) 0,
                sz := (strBytes val).length, cmp := cmpOp.code }
      | _ => .err "invalid target value for array or ptr type"
  else if lmo.isNum then
    match (match rval with
      | .dec val =>
        if val.head? = some '-' then
          if lmo.isSigned = false then
            .err "invalid target value, signed value for unsigned type"
          else
            match parseI64 val with
            | some v => .ok (intAsU64 v)
            | none => .err "invalid i64 literal"
        else
          match fromStrRadixU64 10 val with
          | some v => .ok v
          | none => .err "invalid u64 literal"
      | .hex val =>
        match fromStrRadixU64 16 val with
        | some v => .ok v
        | none => .err "invalid u64 hex literal"
      | .str _ => .err "invalid target value, neither decimal nor hex" :
      RRes Nat) with
    | .err e => .err e
    | .panicked => .panicked
    | .ok long =>
      let szOpt :=
        if lmo.isByte then some 1
        else if lmo.isShort then some 2
        else if lmo.isInt then some 4
        else if lmo.isLong then some 8
        else none
      match szOpt with
      | some s =>
        .ok { md := toNeBytes long 8 ++ List.replicate (META_TARGET_MAX - 8) 0,
              sz := s, cmp := cmpOp.code }
      | none => .err "unexpected numeric type"
  else
    .ok { md := List.replicate META_TARGET_MAX 0, sz := 0, cmp := cmpOp.code }

/-- State threaded through the member walk of `FilterMeta::from_string`:
the pointer loads emitted so far, the current type, the remembered offset
and bitfield size, and the terminal node's mask. -/
structure WalkOut where
  ops : List MetaOp
  ty : BtfType
  storedOffset : Nat
  storedBfSize : Nat
  mask : Nat

/-- `stored_bf_size` is overwritten only when the member reports a
bitfield width. -/
def updBf (sb : Nat) : Option Nat → Nat
  | some b => b
  | none => sb

/-- The indirection handling of an intermediate node
(`match ind.cmp(&one)` in the source): one indirection emits a pointer
load and resets the running offset; more than one is an error; none keeps
the offset and forbids a nonzero mask. -/
def walkStep (offset : Nat) (f : LhsNode) (ind : Nat) (acc : List MetaOp) :
    RRes (Nat × List MetaOp) :=
  if ind = 1 then
    match emitLoadPtr offset f.mask with
    | .ok p => .ok (0, acc ++ [MetaOp.load p])
    | .err e => .err e
    | .panicked => .panicked
  else if 1 < ind then .err "pointers of pointers are not supported"
  else if f.mask ≠ 0 then
    .err "intermediate members masking is only supported for pointers and unsigned numbers"
  else .ok (offset, acc)

/-- The cast handling of an intermediate node (`if let Some(tgt) =
field.tgt_type` in the source): resolve the cast name to a struct, union
or typedef, whose next walkable form must need no indirection. Without a
cast the node's next walkable type is kept. -/
def castStep (env : BtfEnv) (f : LhsNode) (x : BtfType) : RRes BtfType :=
  match f.tgtType with
  | some tgt =>
    match (env.resolve tgt).find? isCastTargetType with
    | none => .err "could not resolve cast type to a struct or typedef"
    | some cty =>
      match nextWalkable cty false with
      | .err e => .err e
      | .panicked => .panicked
      | .ok (n, nty) =>
        if 0 < n then .err "cast type cannot be an alias to a pointer"
        else .ok nty
  | none => .ok x

/-- The field loop of `FilterMeta::from_string`. Intermediate nodes
resolve their next walkable type and go through `walkStep` and
`castStep`; the last node must not carry a cast and supplies the terminal
mask. -/
def walkFields (env : BtfEnv) :
    List LhsNode → BtfType → Nat → Nat → Nat → List MetaOp → RRes WalkOut
  | [], ty, _offt, so, sb, acc => .ok ⟨acc, ty, so, sb, 0⟩
  | [f], ty, offt, _so, sb, acc =>
    match walkBtfNode ty f.member offt with
    | none => .err "field not found"
    | some (offset, bfs, snode) =>
      match f.tgtType with
      | some _ => .err "trying to cast a leaf member"
      | none => .ok ⟨acc, snode, offset, updBf sb bfs, f.mask⟩
  | f :: g :: rest, ty, offt, _so, sb, acc =>
    match walkBtfNode ty f.member offt with
    | none => .err "field not found"
    | some (offset, bfs, snode) =>
      match nextWalkable snode f.tgtType.isSome with
      | .err e => .err e
      | .panicked => .panicked
      | .ok (ind, x) =>
        match walkStep offset f ind acc with
        | .err e => .err e
        | .panicked => .panicked
        | .ok (offtNew, accNew) =>
          match castStep env f x with
          | .err e => .err e
          | .panicked => .panicked
          | .ok tyNew =>
            walkFields env (g :: rest) tyNew offtNew offset (updBf sb bfs) accNew

/-- The body of `FilterMeta::from_string` after parsing: resolve the root
to a struct, walk the fields, emit the terminal load, parse the rval and
prepend the target. -/
def compile (env : BtfEnv) (fields : List LhsNode) (cmpOp : MetaCmp)
    (rvalStr : List Char) : RRes (List MetaOp) :=
  match fields with
  | [] => .err "empty field list"
  | root :: rest =>
    match (env.resolve root.member).find? isStructType with
    | none => .err "could not resolve the root to a struct"
    | some ty0 =>
      match walkFields env rest ty0 0 0 0 [] with
      | .err e => .err e
      | .panicked => .panicked
      | .ok w =>
        match emitLoad w.ty w.storedOffset w.storedBfSize w.mask with
        | .err e => .err e
        | .panicked => .panicked
        | .ok lmo =>
          match Rval.fromString rvalStr with
          | .err e => .err e
          | .panicked => .panicked
          | .ok rv =>
            match emitTarget lmo rv cmpOp with
            | .err e => .err e
            | .panicked => .panicked
            | .ok tgt => .ok (MetaOp.target tgt :: (w.ops ++ [MetaOp.load lmo]))

/-- `FilterMeta::from_string`, parameterised by the type database that the
source obtains from the global inspector. -/
def FilterMeta.fromString (env : BtfEnv) (fstring : String) :
    RRes (List MetaOp) :=
  match parseFilter fstring.toList with
  | .err e => .err e
  | .panicked => .panicked
  | .ok (fields, cmpOp, rvalStr) => compile env fields cmpOp rvalStr

/-! Concrete type-database snapshots, mirroring the kernel layout the
repository's unit tests rely on (`mark` u32 at bit offset 1344, `pkt_type`
3-bit bitfield at bit offset 1024, `dev` pointer at bit offset 128,
`dev->name` char[16] at offset 0, `_nfct` unsigned long at bit offset
832), plus layouts exercising the corner cases of the claims. -/

def u32T : BtfType :=
  .typeAlias "u32".toList (.typeAlias "__u32".toList (.int "unsigned int".toList 4 false))

def charT : BtfType := .int "char".toList 1 true

def netDeviceT : BtfType :=
  .cstruct "net_device".toList (.cons "name".toList 0 none (.array charT 16) .nil)

def nfConnT : BtfType :=
  .cstruct "nf_conn".toList (.cons "mark".toList 1344 none u32T .nil)

def skbMembers : MemberList :=
  .cons "dev".toList 128 none (.ptr netDeviceT) (
  .cons "mark".toList 1344 none u32T (
  .cons "pkt_type".toList 1024 (some 3) (.int "unsigned char".toList 1 false) (
  .cons "chr".toList 64 none (.ptr charT) (
  .cons "_nfct".toList 832 none (.int "unsigned long".toList 8 false) .nil))))

def skbT : BtfType := .cstruct "sk_buff".toList skbMembers

def envSkb : BtfEnv :=
  ⟨fun n =>
    if n = "sk_buff".toList then [skbT]
    else if n = "nf_conn".toList then [nfConnT]
    else []⟩

/-- A string holding one single-quote character. -/
def squoteStr : String := String.mk [squote]

/-- A chain of single-member structs: `chainTy (n+1)` has one member
`next` pointing at `chainTy n`, and `chainTy 0` has one u32 member `v`. -/
def chainTy : Nat → BtfType
  | 0 => .cstruct "tail".toList
      (.cons "v".toList 0 none (.int "unsigned int".toList 4 false) .nil)
  | n + 1 => .cstruct "node".toList
      (.cons "next".toList 0 none (.ptr (chainTy n)) .nil)

def envChain : BtfEnv :=
  ⟨fun n => if n = "sk_buff".toList then [chainTy 31] else []⟩

/-- A filter with 31 pointer dereferences: compiles to 33 meta operations. -/
def chainStr : String :=
  "sk_buff" ++ String.join (List.replicate 31 ".next") ++ ".v == 1"

def chainProg : List MetaOp :=
  .target { md := toNeBytes 1 8 ++ List.replicate 24 0, sz := 4, cmp := 0 } ::
    (List.replicate 31 (.load { ty := 64 }) ++ [.load { ty := 3 }])

/-- Length of the compiled program, when compilation succeeded. -/
def progLen : RRes (List MetaOp) → Option Nat
  | .ok p => some (p.length)
  | _ => none

/-- `sk_buff.chr == 'x'` — a filter whose terminal field is a `char *`. -/
def chrStr : String := "sk_buff.chr == " ++ squoteStr ++ "x" ++ squoteStr

def chrLoad : MetaLoad := { ty := 193, offt := 8 }

def chrProg : List MetaOp :=
  [.target { md := [120] ++ List.replicate 31 0, sz := 1, cmp := 0 },
   .load chrLoad]

def markLoad : MetaLoad := { ty := 3, offt := 168 }

def markProg1 : List MetaOp :=
  [.target { md := toNeBytes 1 8 ++ List.replicate 24 0, sz := 4, cmp := 0 },
   .load markLoad]

def markBareProg : List MetaOp :=
  [.target { md := toNeBytes 0 8 ++ List.replicate 24 0, sz := 4, cmp := 5 },
   .load markLoad]

def markMaskLoad : MetaLoad := { ty := 3, offt := 168, mask := 255 }

def markMaskProg : List MetaOp :=
  [.target { md := toNeBytes 0 8 ++ List.replicate 24 0, sz := 4, cmp := 5 },
   .load markMaskLoad]

def devNameStr : String :=
  "sk_buff.dev.name == " ++ squoteStr ++ "dummy0" ++ squoteStr

def devPtrLoad : MetaLoad := { ty := 64, offt := 16 }

def nameLoad : MetaLoad := { ty := 129, nmemb := 16 }

def devNameTarget : MetaTarget :=
  { md := strBytes "dummy0".toList ++ List.replicate 26 0, sz := 6, cmp := 0 }

def devNameProg : List MetaOp := [.target devNameTarget, .load devPtrLoad, .load nameLoad]

/-- A record whose first member is anonymous with a non-record type, and
whose second member is named `mark`. -/
def recordWithAnon : MemberList :=
  .cons [] 0 none charT (.cons "mark".toList 32 none u32T .nil)

/-- The shape of every operation `emit_load_ptr` can produce: a load
whose kind bits are exactly the pointer bit. -/
def isPtrLoadOp (op : MetaOp) : Prop :=
  ∃ o m, op = .load { ty := PTR_BIT, nmemb := 0, offt := o, bfSize := 0, mask := m }

/-! Helper lemmas. -/

theorem emitLoadPtr_ok {offt mask : Nat} {p : MetaLoad}
    (h : emitLoadPtr offt mask = .ok p) :
    p = { ty := PTR_BIT, nmemb := 0, offt := offt / 8, bfSize := 0, mask := mask } := by
  unfold emitLoadPtr at h
  split at h
  · cases h; rfl
  · cases h

theorem splitOnChar_not_mem {c : Char} {cs : List Char} (h : c ∉ cs) :
    splitOnChar c cs = [cs] := by
  induction cs with
  | nil => rfl
  | cons x xs ih =>
    have hx : ¬ x = c := by
      intro he
      exact h (by rw [he]; exact List.mem_cons_self c xs)
    have hxs : c ∉ xs := fun hm => h (List.mem_cons_of_mem _ hm)
    simp only [splitOnChar, if_neg hx, ih hxs]

theorem parseFilterRest_ok {lhs op rhs : List Char}
    {fields : List LhsNode} {cmpOp : MetaCmp} {rv : List Char}
    (h : parseFilterRest lhs op rhs = .ok (fields, cmpOp, rv)) :
    rv = rhs ∧ MetaCmp.fromStr op = .ok cmpOp := by
  unfold parseFilterRest at h
  split at h <;> try cases h
  split at h
  · cases h
  · split at h <;> try cases h
    rename_i heq
    exact ⟨rfl, heq⟩

/-- `walkStep` either keeps the accumulated ops or appends exactly one
pure pointer load built by `emit_load_ptr`. -/
theorem walkStep_ok {offset : Nat} {f : LhsNode} {ind : Nat}
    {acc : List MetaOp} {offtNew : Nat} {accNew : List MetaOp}
    (h : walkStep offset f ind acc = .ok (offtNew, accNew)) :
    accNew = acc ∨
      accNew = acc ++ [MetaOp.load
        { ty := PTR_BIT, nmemb := 0, offt := offset / 8, bfSize := 0, mask := f.mask }] := by
  unfold walkStep at h
  split at h
  · split at h
    · rename_i p heqp
      cases h
      exact Or.inr (by rw [emitLoadPtr_ok heqp])
    · cases h
    · cases h
  · split at h
    · cases h
    · split at h
      · cases h
      · cases h
        exact Or.inl rfl

theorem walkFields_ops {env : BtfEnv} :
    ∀ {fields : List LhsNode} {ty : BtfType} {offt so sb : Nat}
      {acc : List MetaOp} {w : WalkOut},
      walkFields env fields ty offt so sb acc = .ok w →
      (∀ op ∈ acc, isPtrLoadOp op) → ∀ op ∈ w.ops, isPtrLoadOp op := by
  intro fields
  induction fields with
  | nil =>
    intro ty offt so sb acc w h hacc
    unfold walkFields at h
    cases h
    exact hacc
  | cons f rest ih =>
    intro ty offt so sb acc w h hacc
    cases rest with
    | nil =>
      unfold walkFields at h
      split at h <;> try cases h
      split at h
      · cases h
      · cases h
        exact hacc
    | cons g rest2 =>
      unfold walkFields at h
      split at h <;> try cases h
      split at h <;> try cases h
      split at h <;> try cases h
      rename_i offtNew accNew hstep
      split at h <;> try cases h
      refine ih h ?_
      rcases walkStep_ok hstep with rfl | rfl
      · exact hacc
      · intro op hop
        rcases List.mem_append.1 hop with hin | hin
        · exact hacc op hin
        · rcases List.mem_singleton.1 hin with rfl
          exact ⟨_, _, rfl⟩

/-- Inversion of a successful compilation: the program is exactly one
Target (built from the terminal load) followed by the walk's pointer
loads followed by the terminal load. -/
theorem compile_ok_shape {env : BtfEnv} {fields : List LhsNode}
    {cmpOp : MetaCmp} {rvalStr : List Char} {prog : List MetaOp}
    (h : compile env fields cmpOp rvalStr = .ok prog) :
    ∃ root rest ty0 w lmo rv tgt,
      fields = root :: rest ∧
      (env.resolve root.member).find? isStructType = some ty0 ∧
      walkFields env rest ty0 0 0 0 [] = .ok w ∧
      emitLoad w.ty w.storedOffset w.storedBfSize w.mask = .ok lmo ∧
      Rval.fromString rvalStr = .ok rv ∧
      emitTarget lmo rv cmpOp = .ok tgt ∧
      prog = .target tgt :: (w.ops ++ [.load lmo]) := by
  unfold compile at h
  split at h
  · cases h
  · rename_i root rest
    split at h
    · cases h
    · rename_i ty0 hty
      split at h <;> try cases h
      rename_i w hw
      split at h <;> try cases h
      rename_i lmo hlmo
      split at h <;> try cases h
      rename_i rv hrv
      split at h
      · cases h
      · cases h
      · rename_i tgt htgt
        cases h
        exact ⟨root, rest, ty0, w, lmo, rv, tgt, rfl, hty, hw, hlmo, hrv, htgt, rfl⟩

theorem fromString_ok {env : BtfEnv} {s : String} {prog : List MetaOp}
    (h : FilterMeta.fromString env s = .ok prog) :
    ∃ fields cmpOp rvalStr,
      parseFilter s.toList = .ok (fields, cmpOp, rvalStr) ∧
      compile env fields cmpOp rvalStr = .ok prog := by
  unfold FilterMeta.fromString at h
  split at h
  · cases h
  · cases h
  · rename_i fields cmpOp rvalStr heq
    exact ⟨fields, cmpOp, rvalStr, heq, h⟩

theorem emitLoadFinish_ok {lop : MetaLoad} {offt bfs mask : Nat} {lmo : MetaLoad}
    (h : emitLoadFinish lop offt bfs mask = .ok lmo) :
    lmo.ty = lop.ty ∧ lmo.nmemb = lop.nmemb ∧
    lmo.mask = (if 0 < mask then mask else lop.mask) ∧
    offt < 65536 ∧ bfs < 256 ∧
    lmo.bfSize = bfs ∧ lmo.offt = (if bfs = 0 then offt / 8 else offt) ∧
    (0 < mask → (lop.isPtr || (lop.isNum && !lop.isSigned)) = true) := by
  unfold emitLoadFinish at h
  split at h
  · cases h
  · rename_i hguard
    split at h
    · cases h
    · rename_i hbfs
      split at h
      · cases h
      · rename_i hofft
        cases h
        refine ⟨rfl, rfl, rfl, by omega, by omega, rfl, rfl, ?_⟩
        intro hm
        rcases not_and_or.1 hguard with hc | hc
        · exact absurd hm hc
        · cases hb : (lop.isPtr || (lop.isNum && !lop.isSigned)) with
          | true => rfl
          | false => exact absurd hb hc

/-- A filter string without spaces is compiled as the bare form
`LHS != 0`. -/
theorem parseFilter_single {cs : List Char} (h : ' ' ∉ cs) :
    parseFilter cs = parseFilterRest cs "!=".toList "0".toList := by
  unfold parseFilter
  rw [splitOnChar_not_mem h]

/-- In a successful `emit_load`, a nonzero mask in the result implies the
load is a pointer load or an unsigned numeric load. -/
theorem emitLoad_ok_mask {t : BtfType} {offt bfs mask : Nat} {lmo : MetaLoad}
    (h : emitLoad t offt bfs mask = .ok lmo) (hm : lmo.mask ≠ 0) :
    lmo.isPtr = true ∨ (lmo.isNum = true ∧ lmo.isSigned = false) := by
  unfold emitLoad at h
  split at h
  · cases h
  · cases h
  · rename_i lop hcore
    obtain ⟨hty, hnm, hmask, _, _, _, _, hguard⟩ := emitLoadFinish_ok h
    by_cases hmz : 0 < mask
    · have hg := hguard hmz
      simp only [MetaLoad.isPtr, MetaLoad.isNum, MetaLoad.isByte, MetaLoad.isShort,
        MetaLoad.isInt, MetaLoad.isLong, MetaLoad.isSigned, hty]
      rw [Bool.or_eq_true, Bool.and_eq_true, Bool.not_eq_true'] at hg
      exact hg
    · rw [if_neg hmz] at hmask
      exact absurd hmask hm

/-- A Target successfully emitted against a pointer or array load was
built in the string branch: the operator is `==` or `!=` and the stored
code is the operator's. -/
theorem emitTarget_str_cmp {lmo : MetaLoad} {rv : Rval} {cmpOp : MetaCmp}
    {tgt : MetaTarget} (h : emitTarget lmo rv cmpOp = .ok tgt)
    (hp : lmo.isPtr = true ∨ 0 < lmo.nmemb) :
    (cmpOp = .eq ∨ cmpOp = .ne) ∧ tgt.cmp = cmpOp.code := by
  have hc : (lmo.isPtr || decide (0 < lmo.nmemb)) = true := by
    rcases hp with h1 | h1 <;> simp [h1]
  unfold emitTarget at h
  rw [if_pos hc] at h
  split at h
  · cases h
  · rename_i hguard
    have hcm : cmpOp = .eq ∨ cmpOp = .ne := by
      rcases not_and_or.1 hguard with hx | hx
      · exact Or.inl (not_not.1 hx)
      · exact Or.inr (not_not.1 hx)
    refine ⟨hcm, ?_⟩
    split at h
    · split at h
      · cases h
      · cases h
        rfl
    · cases h

/-- A Target emitted with a `Dec` right-hand side can never succeed when
the load shape is pointer or array. -/
theorem emitTarget_dec_ptrArr_err {lmo : MetaLoad} {cs : List Char}
    {cmpOp : MetaCmp} (hp : lmo.isPtr = true ∨ 0 < lmo.nmemb) :
    (emitTarget lmo (.dec cs) cmpOp).isErr = true := by
  have hc : (lmo.isPtr || decide (0 < lmo.nmemb)) = true := by
    rcases hp with h1 | h1 <;> simp [h1]
  unfold emitTarget
  rw [if_pos hc]
  split
  · rfl
  · rfl

theorem ptrBit_isPtr : MetaLoad.isPtr { ty := PTR_BIT } = true := by decide

theorem getLast_shape {tgt : MetaTarget} {ops : List MetaOp} {lmo : MetaLoad} :
    (MetaOp.target tgt :: (ops ++ [MetaOp.load lmo])).getLast? =
      some (.load lmo) := by
  rw [← List.cons_append]
  exact List.getLast?_concat _

/-! The claims. -/

/-- C1 (amended): for every filter accepted by `FilterMeta::from_string`
the program places the Target first (index 0) followed by the Load ops in
walk order; every Load before the final one is a pure pointer Load (and
hence is followed by a later Load); the final Load itself may carry the
pointer bit (char-pointer string fields), so it is not always a
non-pointer Load. -/
theorem c1_program_shape (env : BtfEnv) (s : String) (prog : List MetaOp)
    (h : FilterMeta.fromString env s = .ok prog) :
    ∃ tgt loads lmo, prog = .target tgt :: (loads ++ [.load lmo]) ∧
      ∀ op ∈ loads, isPtrLoadOp op := by
  obtain ⟨fields, cmpOp, rvalStr, hpf, hcomp⟩ := fromString_ok h
  obtain ⟨root, rest, ty0, w, lmo, rv, tgt, hfields, hty, hw, hlmo, hrv, htgt,
    hprog⟩ := compile_ok_shape hcomp
  exact ⟨tgt, w.ops, lmo, hprog,
    walkFields_ops hw (fun op hop => absurd hop (List.not_mem_nil op))⟩

/-- C1 witness: the program for `sk_buff.mark == 1` has the stated shape. -/
theorem c1_program_shape_witness :
    ∃ tgt loads lmo, markProg1 = .target tgt :: (loads ++ [.load lmo]) ∧
      ∀ op ∈ loads, isPtrLoadOp op :=
  c1_program_shape envSkb "sk_buff.mark == 1" markProg1 (by rfl)

/-- C1 counterexample: `sk_buff.chr == 'x'` (terminal field of type
`char *`) is accepted and its final — and only — Load op is a pointer
Load, so the original claim's "the final emitted op is always a
non-pointer Load" (and "every pointer Load has a later Load") is false. -/
theorem c1_counterexample :
    FilterMeta.fromString envSkb chrStr = .ok chrProg ∧
    chrProg.getLast? = some (.load chrLoad) ∧
    chrLoad.isPtr = true :=
  ⟨by rfl, by rfl, by rfl⟩

/-- C2: the claim says `from_string` never panics, but on a right-hand
side consisting of one single-quote character `Rval::from_str` slices
`rval[1..0]` and the Rust code panics: the code, not the claim, is wrong.
This theorem evaluates the model at the failing input. -/
theorem c2_panics_on_lone_quote :
    FilterMeta.fromString envSkb ("sk_buff.mark == " ++ squoteStr) =
      .panicked := by rfl

/-- C3 counterexample: a filter whose compilation emits 33 meta
operations is accepted by `from_string` (there is no length check and no
ProgramTooLong error), refuting the claim that more than 32 ops are
rejected at compile time. -/
theorem c3_counterexample :
    progLen (FilterMeta.fromString envChain chainStr) = some 33 := by rfl

/-- C3 (amended): `from_string` imposes no bound on the emitted program
length; a filter may compile to more than 32 MetaOps and still be
accepted (the 32-op limit exists only as the capacity of the BPF map
created by `init_meta_map`). -/
theorem c3_no_length_cap :
    ∃ env s prog, FilterMeta.fromString env s = .ok prog ∧ 32 < prog.length :=
  ⟨envChain, chainStr, chainProg, by rfl, by decide⟩

/-- C4 (amended): emitting the final Load requires the member's BIT
offset itself (not the bit offset divided by 8) to fit in 16 bits:
`u16::try_from` runs before the division. If it fits, the stored offset
is the byte offset `offt / 8`; if `offt ≥ 65536` the emission fails even
when `offt / 8` would fit in 16 bits. -/
theorem c4_offset_encoding (t : BtfType) (offt mask : Nat) :
    (∀ lmo, emitLoad t offt 0 mask = .ok lmo →
      offt < 65536 ∧ lmo.offt = offt / 8) ∧
    (65536 ≤ offt → (emitLoad t offt 0 mask).isOk = false) := by
  constructor
  · intro lmo h
    unfold emitLoad at h
    split at h
    · cases h
    · cases h
    · obtain ⟨_, _, _, hofft, _, _, hoffeq, _⟩ := emitLoadFinish_ok h
      exact ⟨hofft, by simpa using hoffeq⟩
  · intro hge
    unfold emitLoad
    split
    · rfl
    · rfl
    · unfold emitLoadFinish
      split
      · rfl
      · split
        · rfl
        · rfl

/-- C4 witness: `mark` at bit offset 1344 emits a Load with byte offset
168 = 1344 / 8. -/
theorem c4_offset_encoding_witness :
    1344 < 65536 ∧ markLoad.offt = 1344 / 8 :=
  (c4_offset_encoding u32T 1344 0).1 markLoad (by rfl)

/-- C4 counterexample: a non-bitfield u32 member at bit offset 65536 has
byte offset 8192, which fits in 16 bits, yet `emit_load` fails — fitting
in 16 bits after the division by 8 is not sufficient for acceptance. -/
theorem c4_counterexample :
    65536 / 8 < 65536 ∧
    (emitLoad (.int "unsigned int".toList 4 false) 65536 0 0).isOk = false :=
  ⟨by decide, by rfl⟩

/-- C5 (amended): a bare-LHS filter (no space in the filter string) whose
compilation succeeds never has a pointer or char-array terminal Load: the
implicit right-hand side `0` is a decimal, which the string branch of
`emit_target` rejects, so such filters fail instead of producing an
all-zero `!=` Target. -/
theorem c5_bare_lhs_rejects_string_loads (env : BtfEnv) (s : String)
    (prog : List MetaOp) (lmo : MetaLoad)
    (h : FilterMeta.fromString env s = .ok prog)
    (hsp : ' ' ∉ s.toList)
    (hlast : prog.getLast? = some (.load lmo)) :
    lmo.isPtr = false ∧ lmo.nmemb = 0 := by
  obtain ⟨fields, cmpOp, rvalStr, hpf, hcomp⟩ := fromString_ok h
  rw [parseFilter_single hsp] at hpf
  obtain ⟨hrv0, _⟩ := parseFilterRest_ok hpf
  subst hrv0
  obtain ⟨root, rest, ty0, w, lmo2, rv, tgt, hfields, hty, hw, hlmo, hrv, htgt,
    hprog⟩ := compile_ok_shape hcomp
  have hdec : Rval.fromString "0".toList = .ok (.dec "0".toList) := by rfl
  rw [hdec] at hrv
  cases hrv
  subst hprog
  rw [getLast_shape] at hlast
  simp only [Option.some.injEq, MetaOp.load.injEq] at hlast
  subst hlast
  by_contra hcon
  have hp : lmo2.isPtr = true ∨ 0 < lmo2.nmemb := by
    rcases not_and_or.1 hcon with hx | hx
    · exact Or.inl (by revert hx; cases lmo2.isPtr <;> simp)
    · exact Or.inr (Nat.pos_of_ne_zero hx)
  have hErr := @emitTarget_dec_ptrArr_err lmo2 "0".toList cmpOp hp
  rw [htgt] at hErr
  simp [RRes.isErr] at hErr

/-- C5 witness: the bare filter `sk_buff.mark` is accepted and its
terminal Load is neither pointer nor array. -/
theorem c5_bare_lhs_witness :
    markLoad.isPtr = false ∧ markLoad.nmemb = 0 :=
  c5_bare_lhs_rejects_string_loads envSkb "sk_buff.mark" markBareProg markLoad
    (by rfl) (by decide) (by rfl)

/-- C5 counterexample: the bare filter `sk_buff.dev.name` — terminal Load
is a char array — is rejected by the code, not accepted with an all-zero
`!=` Target as the claim (following the spec's open question) states. -/
theorem c5_counterexample :
    (FilterMeta.fromString envSkb "sk_buff.dev.name").isErr = true := by rfl

/-- C6: when the terminal Load is pointer or array and the operator is
`==` or `!=`, a quoted string of at most 31 UTF-8 bytes is copied
verbatim into the Target (`bytes[0..size]` equals the RHS content as
bytes, `size` is the byte length, the rest is zero padding), and a
string of 32 or more bytes is rejected. -/
theorem c6_string_target_roundtrip (lmo : MetaLoad) (s : List Char)
    (cmpOp : MetaCmp)
    (hshape : lmo.isPtr = true ∨ 0 < lmo.nmemb)
    (hcmp : cmpOp = .eq ∨ cmpOp = .ne) :
    ((strBytes s).length ≤ 31 →
      emitTarget lmo (.str s) cmpOp =
        .ok { md := strBytes s ++ List.replicate (32 - (strBytes s).length) 0,
              sz := (strBytes s).length, cmp := cmpOp.code }) ∧
    (32 ≤ (strBytes s).length → (emitTarget lmo (.str s) cmpOp).isErr = true) := by
  have hc : (lmo.isPtr || decide (0 < lmo.nmemb)) = true := by
    rcases hshape with h1 | h1 <;> simp [h1]
  have hg : ¬(cmpOp ≠ .eq ∧ cmpOp ≠ .ne) := by
    rcases hcmp with rfl | rfl <;> simp
  constructor
  · intro hlen
    unfold emitTarget
    rw [if_pos hc, if_neg hg]
    show (if META_TARGET_MAX ≤ (strBytes s).length then
        (.err "invalid rval size" : RRes MetaTarget)
      else .ok { md := strBytes s
                   ++ List.replicate (META_TARGET_MAX - (strBytes s).length) 0,
                 sz := (strBytes s).length, cmp := cmpOp.code }) = _
    rw [if_neg (show ¬ META_TARGET_MAX ≤ (strBytes s).length by
      unfold META_TARGET_MAX; omega)]
    rfl
  · intro hlen
    unfold emitTarget
    rw [if_pos hc, if_neg hg]
    show ((if META_TARGET_MAX ≤ (strBytes s).length then
        (.err "invalid rval size" : RRes MetaTarget)
      else .ok { md := strBytes s
                   ++ List.replicate (META_TARGET_MAX - (strBytes s).length) 0,
                 sz := (strBytes s).length, cmp := cmpOp.code })).isErr = true
    rw [if_pos (show META_TARGET_MAX ≤ (strBytes s).length from hlen)]
    rfl

/-- C6 witness: the target for `name == 'dummy0'` round-trips the six
bytes of `dummy0` with size 6. -/
theorem c6_witness :
    emitTarget nameLoad (.str "dummy0".toList) .eq =
      .ok { md := strBytes "dummy0".toList ++ List.replicate 26 0,
            sz := 6, cmp := 0 } :=
  (c6_string_target_roundtrip nameLoad "dummy0".toList .eq
    (Or.inr (by decide)) (Or.inl rfl)).1 (by decide)

/-- C7: in every accepted program whose terminal Load is a pointer or an
array, the Target's comparison code is none of the ordering codes
gt=1, lt=2, ge=3, le=4 (`emit_target` rejects ordering operators for
string shapes, so compilation fails instead). -/
theorem c7_no_ordering_with_string_loads (env : BtfEnv) (s : String)
    (prog : List MetaOp) (tgt : MetaTarget) (lmo : MetaLoad)
    (h : FilterMeta.fromString env s = .ok prog)
    (hhead : prog.head? = some (.target tgt))
    (hlast : prog.getLast? = some (.load lmo))
    (hp : lmo.isPtr = true ∨ 0 < lmo.nmemb) :
    tgt.cmp ≠ 1 ∧ tgt.cmp ≠ 2 ∧ tgt.cmp ≠ 3 ∧ tgt.cmp ≠ 4 := by
  obtain ⟨fields, cmpOp, rvalStr, hpf, hcomp⟩ := fromString_ok h
  obtain ⟨root, rest, ty0, w, lmo2, rv, tgt2, hfields, hty, hw, hlmo, hrv, htgt,
    hprog⟩ := compile_ok_shape hcomp
  subst hprog
  simp only [List.head?_cons, Option.some.injEq, MetaOp.target.injEq] at hhead
  subst hhead
  rw [getLast_shape] at hlast
  simp only [Option.some.injEq, MetaOp.load.injEq] at hlast
  subst hlast
  obtain ⟨hcm, hcode⟩ := emitTarget_str_cmp htgt hp
  rcases hcm with rfl | rfl <;> rw [hcode] <;> refine ⟨?_, ?_, ?_, ?_⟩ <;> decide

/-- C7 witness: `sk_buff.dev.name == 'dummy0'` is accepted, its terminal
Load is an array, and its Target code 0 is not an ordering code. -/
theorem c7_witness :
    devNameTarget.cmp ≠ 1 ∧ devNameTarget.cmp ≠ 2 ∧
    devNameTarget.cmp ≠ 3 ∧ devNameTarget.cmp ≠ 4 :=
  c7_no_ordering_with_string_loads envSkb devNameStr devNameProg
    devNameTarget nameLoad (by rfl) (by rfl) (by rfl) (Or.inr (by decide))

/-- C8: in every emitted Load of an accepted program, a nonzero mask
implies the Load is a pointer Load or an unsigned numeric Load
(intermediate masks are only carried by pointer loads; the terminal mask
is validated by `emit_load`). -/
theorem c8_mask_only_ptr_or_unsigned (env : BtfEnv) (s : String)
    (prog : List MetaOp) (h : FilterMeta.fromString env s = .ok prog) :
    ∀ op ∈ prog, ∀ l : MetaLoad, op = .load l → l.mask ≠ 0 →
      l.isPtr = true ∨ (l.isNum = true ∧ l.isSigned = false) := by
  obtain ⟨fields, cmpOp, rvalStr, hpf, hcomp⟩ := fromString_ok h
  obtain ⟨root, rest, ty0, w, lmo, rv, tgt, hfields, hty, hw, hlmo, hrv, htgt,
    hprog⟩ := compile_ok_shape hcomp
  subst hprog
  intro op hop l hopl hmask
  rcases List.mem_cons.1 hop with rfl | hop2
  · cases hopl
  · rcases List.mem_append.1 hop2 with hin | hin
    · obtain ⟨o, m, rfl⟩ :=
        walkFields_ops hw (fun op hop => absurd hop (List.not_mem_nil op)) op hin
      cases hopl
      exact Or.inl ptrBit_isPtr
    · rcases List.mem_singleton.1 hin with rfl
      cases hopl
      exact emitLoad_ok_mask hlmo hmask

/-- C8 witness: `sk_buff.mark:0xff` is accepted; its terminal Load has
mask 255 and an unsigned numeric kind. -/
theorem c8_witness :
    markMaskLoad.isPtr = true ∨
      (markMaskLoad.isNum = true ∧ markMaskLoad.isSigned = false) :=
  c8_mask_only_ptr_or_unsigned envSkb "sk_buff.mark:0xff" markMaskProg
    (by rfl) (.load markMaskLoad) (by decide) markMaskLoad rfl (by decide)

/-- C9: for a numeric terminal Load, a decimal RHS with a leading minus
sign is rejected when the Load is unsigned; otherwise the RHS is parsed
as u64 (decimal or hexadecimal) with no range check against the scalar
width, its host-byte-order encoding fills the first 8 target bytes, and
`size` is the Load's scalar width (1/2/4/8). -/
theorem c9_numeric_rhs (lmo : MetaLoad) (cmpOp : MetaCmp)
    (hptr : lmo.isPtr = false) (harr : lmo.nmemb = 0) (hnum : lmo.isNum = true) :
    (∀ cs, cs.head? = some '-' → lmo.isSigned = false →
      (emitTarget lmo (.dec cs) cmpOp).isErr = true) ∧
    (∀ cs v, cs.head? ≠ some '-' → fromStrRadixU64 10 cs = some v →
      emitTarget lmo (.dec cs) cmpOp =
        .ok { md := toNeBytes v 8 ++ List.replicate 24 0,
              sz := lmo.scalarWidth, cmp := cmpOp.code }) ∧
    (∀ cs v, fromStrRadixU64 16 cs = some v →
      emitTarget lmo (.hex cs) cmpOp =
        .ok { md := toNeBytes v 8 ++ List.replicate 24 0,
              sz := lmo.scalarWidth, cmp := cmpOp.code }) := by
  have hc : (lmo.isPtr || decide (0 < lmo.nmemb)) = false := by
    simp [hptr, harr]
  have hsz : (if lmo.isByte then some 1
      else if lmo.isShort then some 2
      else if lmo.isInt then some 4
      else if lmo.isLong then some 8 else none) = some lmo.scalarWidth := by
    unfold MetaLoad.scalarWidth
    unfold MetaLoad.isNum at hnum
    by_cases h1 : lmo.isByte <;> by_cases h2 : lmo.isShort <;>
      by_cases h3 : lmo.isInt <;> by_cases h4 : lmo.isLong <;> simp_all
  refine ⟨?_, ?_, ?_⟩
  · intro cs hminus hsig
    unfold emitTarget
    rw [if_neg (by rw [hc]; exact Bool.false_ne_true), if_pos hnum]
    show (RRes.isErr (match (if cs.head? = some '-' then
        (if lmo.isSigned = false then
          (.err "invalid target value, signed value for unsigned type" : RRes Nat)
        else match parseI64 cs with
          | some v => .ok (intAsU64 v)
          | none => .err "invalid i64 literal")
      else match fromStrRadixU64 10 cs with
          | some v => .ok v
          | none => .err "invalid u64 literal") with
      | .err e => (.err e : RRes MetaTarget)
      | .panicked => .panicked
      | .ok long =>
        match (if lmo.isByte then some 1
          else if lmo.isShort then some 2
          else if lmo.isInt then some 4
          else if lmo.isLong then some 8 else none) with
        | some sz =>
          .ok { md := toNeBytes long 8 ++ List.replicate (META_TARGET_MAX - 8) 0,
                sz := sz, cmp := cmpOp.code }
        | none => .err "unexpected numeric type")) = true
    rw [if_pos hminus, if_pos hsig]
    rfl
  · intro cs v hminus hparse
    unfold emitTarget
    rw [if_neg (by rw [hc]; exact Bool.false_ne_true), if_pos hnum]
    show (match (if cs.head? = some '-' then
        (if lmo.isSigned = false then
          (.err "invalid target value, signed value for unsigned type" : RRes Nat)
        else match parseI64 cs with
          | some v => .ok (intAsU64 v)
          | none => .err "invalid i64 literal")
      else match fromStrRadixU64 10 cs with
          | some v => .ok v
          | none => .err "invalid u64 literal") with
      | .err e => (.err e : RRes MetaTarget)
      | .panicked => .panicked
      | .ok long =>
        match (if lmo.isByte then some 1
          else if lmo.isShort then some 2
          else if lmo.isInt then some 4
          else if lmo.isLong then some 8 else none) with
        | some sz =>
          .ok { md := toNeBytes long 8 ++ List.replicate (META_TARGET_MAX - 8) 0,
                sz := sz, cmp := cmpOp.code }
        | none => .err "unexpected numeric type") = _
    rw [if_neg hminus, hparse, hsz]
    rfl
  · intro cs v hparse
    unfold emitTarget
    rw [if_neg (by rw [hc]; exact Bool.false_ne_true), if_pos hnum]
    show (match (match fromStrRadixU64 16 cs with
        | some v => (.ok v : RRes Nat)
        | none => .err "invalid u64 hex literal") with
      | .err e => (.err e : RRes MetaTarget)
      | .panicked => .panicked
      | .ok long =>
        match (if lmo.isByte then some 1
          else if lmo.isShort then some 2
          else if lmo.isInt then some 4
          else if lmo.isLong then some 8 else none) with
        | some sz =>
          .ok { md := toNeBytes long 8 ++ List.replicate (META_TARGET_MAX - 8) 0,
                sz := sz, cmp := cmpOp.code }
        | none => .err "unexpected numeric type") = _
    rw [hparse, hsz]
    rfl

/-- C9 witness: `4294967296` (u32::MAX + 1) is accepted against the
4-byte unsigned `mark` Load, stored in host byte order with size 4. -/
theorem c9_witness :
    emitTarget markLoad (.dec "4294967296".toList) .eq =
      .ok { md := toNeBytes 4294967296 8 ++ List.replicate 24 0,
            sz := 4, cmp := 0 } :=
  (c9_numeric_rhs markLoad .eq rfl rfl rfl).2.1 "4294967296".toList
    4294967296 (by decide) (by rfl)

/-- C10: during field resolution inside a record, an anonymous member
whose resolved type is not a struct or union makes the whole search
return "not found" immediately, even when a member declared later in the
same record (here: any `rest`) matches the requested name. -/
theorem c10_anon_nonrecord_stops_search (moff : Nat) (mbfs : Option Nat)
    (mty : BtfType) (rest : MemberList) (nodeName : List Char) (offset : Nat)
    (hname : nodeName ≠ []) (hrec : isRecordType mty = false) :
    walkMembers (.cons [] moff mbfs mty rest) nodeName offset = none := by
  unfold walkMembers
  rw [if_neg (fun hx => hname hx.symm), if_pos rfl]
  cases mty <;> simp_all [isRecordType]

/-- C10 witness: in a record whose first member is an anonymous char and
whose second member is named `mark`, looking up `mark` fails. -/
theorem c10_witness :
    walkMembers recordWithAnon "mark".toList 0 = none :=
  c10_anon_nonrecord_stops_search 0 none charT
    (.cons "mark".toList 32 none u32T .nil) "mark".toList 0 (by decide) rfl

end Retis
